import Mathlib

/-!
Verification of the yt-stream-discord-sync core: the relay HTTP service
(`src/unnamed/part_000`, an Electron main-process module) and the timestamp
resolver / sync driver (`src/YouTubeTimestampServer/index.tsx`).

The TypeScript is shallowly embedded: JS values are modelled by `JVal`,
the module-level mutable variables of the relay by `ModuleState`, and each
HTTP handler by a pure function from (clock, parsed body, state) to
(result, state).  JS truthiness (`""`, `0`, `null`, `undefined` are falsy)
is modelled explicitly.  `new Date(string)` parsing is modelled by
`jsDateParse`, an executable implementation of the ECMA-262 Date Time
String Format (the only parse format the JS standard defines;
implementation-specific fallback formats are outside the model).
-/

namespace YTSync

/-- A JavaScript value as it appears after `JSON.parse`, plus `undefined`
for absent object fields. -/
inductive JVal where
  | vUndefined
  | vNull
  | vBool (b : Bool)
  | vNum (n : Int)
  | vStr (s : String)
  | vObj (fields : List (String × JVal))

/-- JS truthiness of a value: `undefined`, `null`, `false`, `0` and `""`
are falsy; every object is truthy. -/
def truthy : JVal → Bool
  | .vUndefined => false
  | .vNull => false
  | .vBool b => b
  | .vNum n => n != 0
  | .vStr s => s != ""
  | .vObj _ => true

/-- Property access `v.k` on a parsed JSON value: `undefined` unless `v` is
an object carrying the key (JSON objects have unique keys). -/
def getField (v : JVal) (k : String) : JVal :=
  match v with
  | .vObj fields =>
    match fields.find? (fun p => p.1 == k) with
    | some p => p.2
    | none => .vUndefined
  | _ => .vUndefined

/-- JS truthiness of a nullable string variable (`null` and `""` falsy). -/
def truthyStr : Option String → Bool
  | none => false
  | some s => s != ""

/-! Model of `new Date(string).getTime()` per the ECMA-262 Date Time String
Format: `YYYY[-MM[-DD]][THH:mm[:ss[.sss]][Z|+HH:mm|-HH:mm]]`, with calendar
validity checks as performed by the major engines.  A date-time string
with no offset is taken at offset 0 (the offset does not affect validity,
which is all `isValidTimestamp` inspects). -/

/-- Value of a decimal digit character, or `none`. -/
def digitVal (c : Char) : Option Nat :=
  if c.isDigit then some (c.toNat - 48) else none

/-- Read exactly two decimal digits. -/
def read2 : List Char → Option (Nat × List Char)
  | c1 :: c2 :: rest =>
    match digitVal c1, digitVal c2 with
    | some d1, some d2 => some (d1 * 10 + d2, rest)
    | _, _ => none
  | _ => none

/-- Read exactly three decimal digits. -/
def read3 : List Char → Option (Nat × List Char)
  | c1 :: c2 :: c3 :: rest =>
    match digitVal c1, digitVal c2, digitVal c3 with
    | some d1, some d2, some d3 => some ((d1 * 10 + d2) * 10 + d3, rest)
    | _, _, _ => none
  | _ => none

/-- Read exactly four decimal digits. -/
def read4 : List Char → Option (Nat × List Char)
  | c1 :: c2 :: c3 :: c4 :: rest =>
    match digitVal c1, digitVal c2, digitVal c3, digitVal c4 with
    | some d1, some d2, some d3, some d4 =>
      some (((d1 * 10 + d2) * 10 + d3) * 10 + d4, rest)
    | _, _, _, _ => none
  | _ => none

/-- Gregorian leap year. -/
def isLeapYear (y : Int) : Bool :=
  y % 4 == 0 && (y % 100 != 0 || y % 400 == 0)

/-- Number of days in a month (`m` is 1-based). -/
def daysInMonth (y : Int) (m : Nat) : Nat :=
  match m with
  | 1 => 31 | 3 => 31 | 5 => 31 | 7 => 31 | 8 => 31 | 10 => 31 | 12 => 31
  | 4 => 30 | 6 => 30 | 9 => 30 | 11 => 30
  | 2 => if isLeapYear y then 29 else 28
  | _ => 0

/-- Days since 1970-01-01 of a proleptic Gregorian civil date
(the standard days-from-civil computation). -/
def daysFromCivil (y : Int) (m d : Nat) : Int :=
  let y' : Int := if m ≤ 2 then y - 1 else y
  let era : Int := (if 0 ≤ y' then y' else y' - 399) / 400
  let yoe : Int := y' - era * 400
  let doy : Int := (153 * (if 2 < m then (m : Int) - 3 else (m : Int) + 9) + 2) / 5
    + (d : Int) - 1
  let doe : Int := yoe * 365 + yoe / 4 - yoe / 100 + doy
  era * 146097 + doe - 719468

/-- Epoch milliseconds of a date-time with a UTC offset in minutes. -/
def epochMs (y : Int) (mo d hh mi ss ms : Nat) (offMin : Int) : Int :=
  daysFromCivil y mo d * 86400000 + (hh : Int) * 3600000 + (mi : Int) * 60000
    + (ss : Int) * 1000 + (ms : Int) - offMin * 60000

/-- Read the optional seconds-and-milliseconds part `[:ss[.sss]]`. -/
def readSecMs : List Char → Option (Nat × Nat × List Char)
  | ':' :: r =>
    match read2 r with
    | some (ss, '.' :: r2) =>
      match read3 r2 with
      | some (ms, r3) => some (ss, ms, r3)
      | none => none
    | some (ss, r2) => some (ss, 0, r2)
    | none => none
  | l => some (0, 0, l)

/-- Read the time-zone offset part, which must consume the rest of the
string: empty (treated as offset 0), `Z`, or `±HH:mm`. -/
def readOffset : List Char → Option Int
  | [] => some 0
  | ['Z'] => some 0
  | '+' :: r =>
    match read2 r with
    | some (oh, ':' :: r2) =>
      match read2 r2 with
      | some (om, []) => if oh ≤ 23 ∧ om ≤ 59 then some ((oh : Int) * 60 + om) else none
      | _ => none
    | _ => none
  | '-' :: r =>
    match read2 r with
    | some (oh, ':' :: r2) =>
      match read2 r2 with
      | some (om, []) => if oh ≤ 23 ∧ om ≤ 59 then some (-((oh : Int) * 60 + om)) else none
      | _ => none
    | _ => none
  | _ => none

/-- Read `HH:mm[:ss[.sss]][offset]`, consuming the whole input. -/
def readTime (l : List Char) : Option (Nat × Nat × Nat × Nat × Int) :=
  match read2 l with
  | some (hh, ':' :: r1) =>
    match read2 r1 with
    | some (mi, r2) =>
      match readSecMs r2 with
      | some (ss, ms, r3) =>
        match readOffset r3 with
        | some off =>
          if (hh ≤ 23 ∨ (hh = 24 ∧ mi = 0 ∧ ss = 0 ∧ ms = 0)) ∧ mi ≤ 59 ∧ ss ≤ 59 then
            some (hh, mi, ss, ms, off)
          else none
        | none => none
      | none => none
    | none => none
  | _ => none

/-- Read `YYYY[-MM[-DD]]`, returning year, month, day and the rest. -/
def readDate (l : List Char) : Option (Int × Nat × Nat × List Char) :=
  match read4 l with
  | some (y, '-' :: r1) =>
    match read2 r1 with
    | some (mo, '-' :: r2) =>
      match read2 r2 with
      | some (d, r3) => some ((y : Int), mo, d, r3)
      | none => none
    | some (mo, r2) => some ((y : Int), mo, 1, r2)
    | none => none
  | some (y, r1) => some ((y : Int), 1, 1, r1)
  | none => none

/-- Model of `new Date(s).getTime()`: `some` epoch milliseconds when the
string is a valid ECMA-262 date-time string, `none` for `NaN`. -/
def jsDateParse (s : String) : Option Int :=
  match readDate s.toList with
  | none => none
  | some (y, mo, d, rest) =>
    if 1 ≤ mo ∧ mo ≤ 12 ∧ 1 ≤ d ∧ d ≤ daysInMonth y mo then
      match rest with
      | [] => some (epochMs y mo d 0 0 0 0 0)
      | 'T' :: tl =>
        match readTime tl with
        | some (hh, mi, ss, ms, off) => some (epochMs y mo d hh mi ss ms off)
        | none => none
      | _ => none
    else none

/-- JS `s.includes(needle)` for a single-character needle: character
containment. -/
def includesChar (s : String) (c : Char) : Bool :=
  s.toList.contains c

/-- `isValidTimestamp` (src/unnamed/part_000 lines 16-22): a string that
parses as a date (`!isNaN(new Date(t).getTime())`) and contains both `"T"`
and `"Z"`. -/
def isValidTimestamp (v : JVal) : Bool :=
  match v with
  | .vStr s => (jsDateParse s).isSome && includesChar s 'T' && includesChar s 'Z'
  | _ => false

/-! Relay service (src/unnamed/part_000).  The module-level mutable
variables `currentPort`, `timestampData`, `lastUpdate`, `redirectTimestamp`
and `server` form `ModuleState`; each HTTP handler is a pure function from
the current clock (`Date.now()`), the parsed request body (`none` for
malformed JSON) and the state to a result and a new state. -/

/-- The relay module's mutable state.  `server` is the truthiness of the
`server` variable (a live `http.Server` handle or `null`). -/
structure ModuleState where
  currentPort : Nat
  timestampData : Option JVal
  lastUpdate : Option Int
  redirectTimestamp : Option String
  server : Bool

/-- State at module load: all data variables `null`, port defaulted, no
server. -/
def initialModuleState : ModuleState :=
  { currentPort := 8080, timestampData := none, lastUpdate := none,
    redirectTimestamp := none, server := false }

/-- Outcome of `POST /update`: 400 for malformed JSON or an invalid/missing
`gmt`, else 200 with the accepted `gmt` echoed and an optional one-shot
`redirect` field. -/
inductive UpdateResult where
  | invalid
  | ok (received : JVal) (redirect : Option String)

/-- Whether an update was accepted (HTTP 200). -/
def UpdateResult.isOk : UpdateResult → Bool
  | .invalid => false
  | .ok _ _ => true

/-- The `redirect` field of an update response, when present. -/
def UpdateResult.redirectOf : UpdateResult → Option String
  | .invalid => none
  | .ok _ r => r

/-- The `/update` handler (lines 89-131): rejects when `!data.gmt ||
!isValidTimestamp(data.gmt)`; otherwise stores the record and receipt time,
echoes the `gmt`, and attaches-and-clears a truthy pending
`redirectTimestamp` in the same step. -/
def handleUpdate (now : Int) (body : Option JVal) (s : ModuleState) :
    UpdateResult × ModuleState :=
  match body with
  | none => (.invalid, s)
  | some data =>
    let g := getField data "gmt"
    if truthy g && isValidTimestamp g then
      if truthyStr s.redirectTimestamp then
        (.ok g s.redirectTimestamp,
         { s with timestampData := some data, lastUpdate := some now,
                  redirectTimestamp := none })
      else
        (.ok g none,
         { s with timestampData := some data, lastUpdate := some now })
    else (.invalid, s)

/-- Outcome of `GET /ping`: 404 when no (truthy) data is stored, else 200
with a copy of the stored record and an optional non-persisted `warning`
field. -/
inductive PingResult where
  | noData
  | ok (data : JVal) (warning : Option String)

/-- The staleness warning string
`` `Data may be stale (${Math.round(age)} seconds old)` ``. -/
def staleWarning (ageRounded : Int) : String :=
  "Data may be stale (" ++ toString ageRounded ++ " seconds old)"

/-- `Math.round(elapsed / 1000)` for an integer number `elapsed` of
milliseconds: floor(elapsed/1000 + 1/2). -/
def jsRoundDiv1000 (elapsed : Int) : Int :=
  (2 * elapsed + 1000).fdiv 2000

/-- The `/ping` handler (lines 52-86).  `if (lastUpdate)` is a JS
truthiness test, so a receipt time of exactly `0` skips the staleness
check; `age > 10` with `age = (now - lastUpdate) / 1000` in exact
arithmetic is `now - lastUpdate > 10000`. -/
def handlePing (now : Int) (s : ModuleState) : PingResult × ModuleState :=
  match s.timestampData with
  | none => (.noData, s)
  | some data =>
    if truthy data = false then (.noData, s)
    else
      let warning : Option String :=
        match s.lastUpdate with
        | none => none
        | some lu =>
          if lu = 0 then none
          else if 10000 < now - lu then some (staleWarning (jsRoundDiv1000 (now - lu)))
          else none
      (.ok data warning, s)

/-- Outcome of `POST /redirect`. -/
inductive RedirectResult where
  | invalid
  | ok (redirect : String)

/-- String payload of a JS value, for a context where it is known to be a
string. -/
def asString : JVal → String
  | .vStr s => s
  | _ => ""

/-- The `/redirect` handler (lines 134-170): 400 when the `timestamp`
field is falsy or fails the validator; otherwise overwrites
`redirectTimestamp` (last-write-wins) and echoes it. -/
def handleRedirect (body : Option JVal) (s : ModuleState) :
    RedirectResult × ModuleState :=
  match body with
  | none => (.invalid, s)
  | some data =>
    let ts := getField data "timestamp"
    if truthy ts = false then (.invalid, s)
    else if isValidTimestamp ts = false then (.invalid, s)
    else (.ok (asString ts), { s with redirectTimestamp := some (asString ts) })

/-- `stopServer` (lines 201-211): when a server handle exists, close it and
clear all three data variables; otherwise do nothing. -/
def stopServer (s : ModuleState) : ModuleState :=
  if s.server then
    { s with server := false, timestampData := none, lastUpdate := none,
             redirectTimestamp := none }
  else s

/-- The synchronous part of `startServer` (lines 24-199): stop first when
running on a different port, return early when already running, otherwise
record the port and create the server handle.  The second component is
whether a fresh `listen` was issued (an `error` event can then still fire
asynchronously). -/
def startServerSync (port : Nat) (s : ModuleState) : ModuleState × Bool :=
  let s1 := if s.server ∧ s.currentPort ≠ port then stopServer s else s
  if s1.server then (s1, false)
  else ({ s1 with currentPort := port, server := true }, true)

/-- Delivery of the asynchronous `listen` outcome: when the port was in use
the `error` handler (lines 183-191) fires with `EADDRINUSE`, logs, and sets
`server = null`.  No retry is attempted. -/
def settleListen (portInUse : Bool) (listened : Bool) (s : ModuleState) : ModuleState :=
  if listened ∧ portInUse then { s with server := false } else s

/-- Result returned to the renderer by `startServerIPC`. -/
structure IPCStartResult where
  success : Bool
  port : Nat

/-- `startServerIPC` (lines 214-222) with the subsequent event-loop
settling.  The `catch` branch (`success:false`) is reachable only from a
synchronous throw inside `startServer`; `EADDRINUSE` is delivered through
the asynchronous `error` event after `startServerIPC` has already
returned, so the IPC result is `{success: true}` in that case. -/
def startServerIPC (portInUse : Bool) (port : Nat) (s : ModuleState) :
    IPCStartResult × ModuleState :=
  let r := startServerSync port s
  ({ success := true, port := r.1.currentPort }, settleListen portInUse r.2 r.1)

/-- One relay operation, for reasoning about operation sequences. -/
inductive RelayOp where
  | push (now : Int) (body : Option JVal)
  | read (now : Int)
  | setRedirect (body : Option JVal)
  | stop

/-- State effect of one relay operation. -/
def applyOp (s : ModuleState) : RelayOp → ModuleState
  | .push now body => (handleUpdate now body s).2
  | .read now => (handlePing now s).2
  | .setRedirect body => (handleRedirect body s).2
  | .stop => stopServer s

/-- Run a sequence of relay operations. -/
def runOps (s : ModuleState) (ops : List RelayOp) : ModuleState :=
  ops.foldl applyOp s

/-! Timestamp resolver (src/YouTubeTimestampServer/index.tsx,
`findMessageByTimestamp`, lines 109-209).  Message timestamps and the
target time are epoch milliseconds (`.valueOf()` / `new Date(..).getTime()`
of server-validated timestamp strings, which always parse); a message with
no `timestamp` field is skipped. -/

/-- A candidate item of the ordered message feed. -/
structure Message where
  id : String
  timestamp : Option Int
deriving Repr, DecidableEq

/-- An element of the `messagesWithDiffs` working array. -/
structure DiffEntry where
  id : String
  diff : Int
  index : Nat
deriving Repr, DecidableEq

/-- The resolver's return value. -/
structure MatchResult where
  id : String
  diff : Int
  isClosest : Bool
deriving Repr, DecidableEq

/-- Forward-mode test (line 139): `lastTargetTime !== null && targetTime >
lastTargetTime`. -/
def forwardMode (lastTargetTime : Option Int) (targetTime : Int) : Bool :=
  match lastTargetTime with
  | none => false
  | some lt => lt < targetTime

/-- Per-candidate distance (lines 139-149): in forward mode reward items at
or after the target and add a `1000000` penalty to earlier items; otherwise
the absolute difference. -/
def msgDiff (fwd : Bool) (targetTime t : Int) : Int :=
  if fwd then
    if targetTime ≤ t then t - targetTime
    else targetTime - t + 1000000
  else |t - targetTime|

/-- JS `findIndex(m => m.id === lid)` running from position `i`. -/
def findIndexFrom (lid : String) : Nat → List Message → Option Nat
  | _, [] => none
  | i, m :: rest => if m.id == lid then some i else findIndexFrom lid (i + 1) rest

/-- Scan start index (lines 118-126): when moving forward and a truthy
`lastScrolledMessageId` is found in the array, start at its index;
otherwise 0 (JS `findIndex` returning `-1` keeps `startIndex = 0`). -/
def startIndexOf (messageArray : List Message) (lastTargetTime : Option Int)
    (lastScrolledMessageId : Option String) (targetTime : Int) : Nat :=
  if forwardMode lastTargetTime targetTime && truthyStr lastScrolledMessageId then
    match lastScrolledMessageId with
    | some lid =>
      match findIndexFrom lid 0 messageArray with
      | some i => i
      | none => 0
    | none => 0
  else 0

/-- The `for` loop of lines 131-152: entries for the messages at index
`≥ startIndex` that carry a timestamp, in array order, with `i` the index
of the first listed message. -/
def collectDiffs (fwd : Bool) (targetTime : Int) (startIndex : Nat) :
    Nat → List Message → List DiffEntry
  | _, [] => []
  | i, m :: rest =>
    let tail := collectDiffs fwd targetTime startIndex (i + 1) rest
    if i < startIndex then tail
    else
      match m.timestamp with
      | none => tail
      | some t => ⟨m.id, msgDiff fwd targetTime t, i⟩ :: tail

/-- The `reduce` of lines 157-159: minimum by `diff`, earliest entry
winning ties (`curr.diff < prev.diff ? curr : prev`). -/
def reduceClosest (acc : DiffEntry) : List DiffEntry → DiffEntry
  | [] => acc
  | e :: es => reduceClosest (if e.diff < acc.diff then e else acc) es

/-- Local-minimum verification (lines 164-202): recompute the distance of
the immediate array neighbours of the selected entry; the check fails when
either has a strictly smaller distance. -/
def isClosestCheck (messageArray : List Message) (fwd : Bool) (targetTime : Int)
    (closest : DiffEntry) : Bool :=
  let prevOk : Bool :=
    if 0 < closest.index then
      match messageArray.get? (closest.index - 1) with
      | some m =>
        match m.timestamp with
        | some t => if msgDiff fwd targetTime t < closest.diff then false else true
        | none => true
      | none => true
    else true
  let nextOk : Bool :=
    if closest.index + 1 < messageArray.length then
      match messageArray.get? (closest.index + 1) with
      | some m =>
        match m.timestamp with
        | some t => if msgDiff fwd targetTime t < closest.diff then false else true
        | none => true
      | none => true
    else true
  prevOk && nextOk

/-- The entry the `reduce` selects, when any candidate has a timestamp. -/
def selectedEntry (messageArray : List Message) (lastTargetTime : Option Int)
    (lastScrolledMessageId : Option String) (targetTime : Int) : Option DiffEntry :=
  match collectDiffs (forwardMode lastTargetTime targetTime) targetTime
      (startIndexOf messageArray lastTargetTime lastScrolledMessageId targetTime)
      0 messageArray with
  | [] => none
  | e :: es => some (reduceClosest e es)

/-- `findMessageByTimestamp` (lines 109-209) over the channel's message
array, with the module variables `lastTargetTime` and
`lastScrolledMessageId` passed explicitly and the target's
`new Date(targetTimestamp).getTime()` passed as `targetTime`.  Returns
`null` when no candidate carries a timestamp; `isClosest` is
`isAlreadyAtClosest && isClosest` of the source (lines 204-208). -/
def findMessageByTimestamp (messageArray : List Message) (lastTargetTime : Option Int)
    (lastScrolledMessageId : Option String) (targetTime : Int) : Option MatchResult :=
  let fwd := forwardMode lastTargetTime targetTime
  let startIndex := startIndexOf messageArray lastTargetTime lastScrolledMessageId targetTime
  match collectDiffs fwd targetTime startIndex 0 messageArray with
  | [] => none
  | e :: es =>
    let closest := reduceClosest e es
    some ⟨closest.id, closest.diff,
          (lastScrolledMessageId == some closest.id)
            && isClosestCheck messageArray fwd targetTime closest⟩

/-- The `MessageStore.getMessages` guard (lines 110-111): `null` store
yields `null`. -/
def findMessageInStore (messages : Option (List Message)) (lastTargetTime : Option Int)
    (lastScrolledMessageId : Option String) (targetTime : Int) : Option MatchResult :=
  match messages with
  | none => none
  | some arr => findMessageByTimestamp arr lastTargetTime lastScrolledMessageId targetTime

/-! Sync driver (src/YouTubeTimestampServer/index.tsx, `scrollToTimestamp`
lines 211-245 and `attemptScrollToTarget` lines 344-401).  The module
variables `targetTimestamp`, `lastFetchedTimestamp`,
`lastScrolledMessageId` and `lastTargetTime` form `DriverState`; `getTime`
stands for the ambient `new Date(s).getTime()` on the timestamp strings
involved.  Observable calls are recorded as `DriverAction`s. -/

/-- Driver-side resolver memory and held target. -/
structure DriverState where
  targetTimestamp : Option String
  lastFetchedTimestamp : Option String
  lastScrolledMessageId : Option String
  lastTargetTime : Option Int
deriving Repr, DecidableEq

/-- Externally observable calls of one driver tick: an invocation of the
resolver on the held target, and a scroll/jump to a message. -/
inductive DriverAction where
  | resolve (targetTimestamp : String)
  | scrollTo (messageId : String)
deriving Repr, DecidableEq

/-- The target-update step of `scrollToTimestamp` (lines 226-238), run when
the fetched `gmt` differs from `lastFetchedTimestamp`: record the fetch,
reset `lastScrolledMessageId` only when there was no previous target or the
target moved forward by more than 1000 ms, and hold the new target. -/
def updateTargetOnChange (gmt : String) (newTargetTime : Int) (d : DriverState) :
    DriverState :=
  if d.lastFetchedTimestamp == some gmt then d
  else
    { targetTimestamp := some gmt
      lastFetchedTimestamp := some gmt
      lastScrolledMessageId :=
        match d.lastTargetTime with
        | none => none
        | some lt => if lt + 1000 < newTargetTime then none else d.lastScrolledMessageId
      lastTargetTime := some newTargetTime }

/-- `attemptScrollToTarget` (lines 344-401): no-op without a truthy held
target or while the context menu is open; otherwise the resolver runs, and
unless the result is settled or already scrolled-to, `lastScrolledMessageId`
is updated and a scroll/jump is issued. -/
def attemptScrollToTarget (getTime : String → Int) (messages : Option (List Message))
    (menuOpen : Bool) (d : DriverState) : DriverState × List DriverAction :=
  match d.targetTimestamp with
  | none => (d, [])
  | some tgt =>
    if tgt == "" then (d, [])
    else if menuOpen then (d, [])
    else
      match findMessageInStore messages d.lastTargetTime d.lastScrolledMessageId
          (getTime tgt) with
      | none => (d, [DriverAction.resolve tgt])
      | some result =>
        if result.isClosest then (d, [DriverAction.resolve tgt])
        else if d.lastScrolledMessageId == some result.id then
          (d, [DriverAction.resolve tgt])
        else
          ({ d with lastScrolledMessageId := some result.id },
           [DriverAction.resolve tgt, DriverAction.scrollTo result.id])

/-- One driver tick, `scrollToTimestamp` (lines 211-245): `fetched` is the
`gmt` of a successful `/ping` (`none` for a failed fetch or missing `gmt`).
On failure, keep trying an already-held target; on success, run the
target-update step when the value changed, then always attempt to scroll to
the held target. -/
def scrollToTimestamp (getTime : String → Int) (messages : Option (List Message))
    (menuOpen : Bool) (channelId : Option String) (fetched : Option String)
    (d : DriverState) : DriverState × List DriverAction :=
  if truthyStr channelId = false then (d, [])
  else
    match fetched with
    | none =>
      if truthyStr d.targetTimestamp then attemptScrollToTarget getTime messages menuOpen d
      else (d, [])
    | some gmt =>
      if gmt == "" then
        if truthyStr d.targetTimestamp then attemptScrollToTarget getTime messages menuOpen d
        else (d, [])
      else
        let d1 := updateTargetOnChange gmt (getTime gmt) d
        if truthyStr d1.targetTimestamp then attemptScrollToTarget getTime messages menuOpen d1
        else (d1, [])

/-- Concrete `/redirect` body used in witnesses. -/
def exBodyX : JVal := .vObj [("timestamp", .vStr "2025-11-28T21:00:00.000Z")]

/-- Concrete `/update` body used in witnesses. -/
def exBodyA : JVal := .vObj [("gmt", .vStr "2025-01-01T00:00:00.000Z")]

/-- A second concrete `/update` body used in witnesses. -/
def exBodyB : JVal := .vObj [("gmt", .vStr "2025-01-01T00:00:10.000Z")]

/-! Helper lemmas about the relay handlers. -/

theorem handlePing_state (now : Int) (s : ModuleState) : (handlePing now s).2 = s := by
  unfold handlePing
  split
  · rfl
  · split <;> rfl

theorem handleRedirect_data (body : Option JVal) (s : ModuleState) :
    (handleRedirect body s).2.timestampData = s.timestampData
    ∧ (handleRedirect body s).2.lastUpdate = s.lastUpdate := by
  unfold handleRedirect
  split
  · exact ⟨rfl, rfl⟩
  · dsimp only
    split
    · exact ⟨rfl, rfl⟩
    · split <;> exact ⟨rfl, rfl⟩

theorem handleUpdate_inv (now : Int) (body : Option JVal) (s : ModuleState)
    (h : s.timestampData = none ↔ s.lastUpdate = none) :
    ((handleUpdate now body s).2.timestampData = none
      ↔ (handleUpdate now body s).2.lastUpdate = none) := by
  unfold handleUpdate
  split
  · exact h
  · dsimp only
    split
    · split <;> simp
    · exact h

theorem applyOp_inv (s : ModuleState) (op : RelayOp)
    (h : s.timestampData = none ↔ s.lastUpdate = none) :
    ((applyOp s op).timestampData = none ↔ (applyOp s op).lastUpdate = none) := by
  cases op with
  | push now body => exact handleUpdate_inv now body s h
  | read now => rw [applyOp, handlePing_state]; exact h
  | setRedirect body =>
    rw [applyOp, (handleRedirect_data body s).1, (handleRedirect_data body s).2]
    exact h
  | stop =>
    rw [applyOp]; unfold stopServer
    split
    · simp
    · exact h

/-- C8: `read()` (the `/ping` handler) never mutates relay state — after any
number of reads the whole stored state (latest record, receipt time,
pending redirect) is exactly as before, the `warning` is only on the
returned copy, and a repeated read produces the same annotated response a
fresh read would. -/
theorem claim_C8 (s : ModuleState) (now now2 : Int) (n : Nat) :
    (handlePing now s).2 = s
    ∧ (fun st => (handlePing now st).2)^[n] s = s
    ∧ (handlePing now2 ((handlePing now s).2)).1 = (handlePing now2 s).1 := by
  refine ⟨handlePing_state now s, ?_, ?_⟩
  · exact Function.iterate_fixed (handlePing_state now s) n
  · rw [handlePing_state now s]

/-- C9 (code bug evaluation): starting the relay on a port that is already
in use leaves the service in the defined not-running state with no retry
(the final module state is exactly the initial, not-running one), but
`startServerIPC` reports `{success: true}` to its caller — the
`EADDRINUSE` failure is only logged, never surfaced in the IPC result. -/
theorem claim_C9 :
    (startServerIPC true 8080 initialModuleState).1.success = true
    ∧ (startServerIPC true 8080 initialModuleState).2.server = false
    ∧ (startServerIPC true 8080 initialModuleState).2 = initialModuleState :=
  ⟨rfl, rfl, rfl⟩

/-- C10: from the initial empty relay state, after every sequence of push,
read, setRedirect and stop operations, the stored record and its receipt
time are both absent or both present. -/
theorem claim_C10 (ops : List RelayOp) :
    ((runOps initialModuleState ops).timestampData = none
      ↔ (runOps initialModuleState ops).lastUpdate = none) := by
  have main : ∀ (ops : List RelayOp) (s : ModuleState),
      (s.timestampData = none ↔ s.lastUpdate = none) →
      ((runOps s ops).timestampData = none ↔ (runOps s ops).lastUpdate = none) := by
    intro ops
    induction ops with
    | nil => intro s h; exact h
    | cons op rest ih =>
      intro s h
      exact ih (applyOp s op) (applyOp_inv s op h)
  exact main ops initialModuleState (by simp [initialModuleState])

theorem isValidTimestamp_vStr (v : JVal) (h : isValidTimestamp v = true) :
    ∃ s, v = .vStr s ∧ (jsDateParse s).isSome = true ∧ includesChar s 'T' = true
      ∧ includesChar s 'Z' = true := by
  cases v with
  | vStr s =>
    simp only [isValidTimestamp, Bool.and_eq_true] at h
    exact ⟨s, rfl, h.1.1, h.1.2, h.2⟩
  | vUndefined => exact absurd h (by simp [isValidTimestamp])
  | vNull => exact absurd h (by simp [isValidTimestamp])
  | vBool b => exact absurd h (by simp [isValidTimestamp])
  | vNum n => exact absurd h (by simp [isValidTimestamp])
  | vObj fs => exact absurd h (by simp [isValidTimestamp])

theorem isValidTimestamp_truthy (v : JVal) (h : isValidTimestamp v = true) :
    truthy v = true := by
  obtain ⟨s, rfl, -, hT, -⟩ := isValidTimestamp_vStr v h
  have hs : s ≠ "" := by
    rintro rfl
    exact absurd hT (by decide)
  simp [truthy, hs]

theorem handleRedirect_ok (body : JVal) (s : ModuleState) (x : String)
    (h : (handleRedirect (some body) s).1 = RedirectResult.ok x) :
    (handleRedirect (some body) s).2 = { s with redirectTimestamp := some x }
    ∧ x ≠ "" := by
  unfold handleRedirect at h ⊢
  dsimp only at h ⊢
  by_cases h1 : truthy (getField body "timestamp") = false
  · rw [if_pos h1] at h; exact absurd h (by simp)
  · rw [if_neg h1] at h ⊢
    by_cases h2 : isValidTimestamp (getField body "timestamp") = false
    · rw [if_pos h2] at h; exact absurd h (by simp)
    · rw [if_neg h2] at h ⊢
      have hx : asString (getField body "timestamp") = x := by simpa using h
      have hvalid : isValidTimestamp (getField body "timestamp") = true := by
        simpa using h2
      obtain ⟨str, heq, -, hT, -⟩ := isValidTimestamp_vStr _ hvalid
      have hne : x ≠ "" := by
        rw [← hx, heq]
        intro hc
        simp only [asString] at hc
        subst hc
        exact absurd hT (by decide)
      exact ⟨by rw [hx], hne⟩

theorem handleUpdate_ok (now : Int) (body : JVal) (s : ModuleState)
    (h : ((handleUpdate now (some body) s).1).isOk = true) :
    handleUpdate now (some body) s
      = (UpdateResult.ok (getField body "gmt")
           (if truthyStr s.redirectTimestamp then s.redirectTimestamp else none),
         { s with timestampData := some body, lastUpdate := some now,
                  redirectTimestamp := if truthyStr s.redirectTimestamp then none
                                       else s.redirectTimestamp }) := by
  unfold handleUpdate at h ⊢
  dsimp only at h ⊢
  by_cases hg : (truthy (getField body "gmt") && isValidTimestamp (getField body "gmt")) = true
  · rw [if_pos hg]
    by_cases hr : truthyStr s.redirectTimestamp = true
    · rw [if_pos hr, if_pos hr, if_pos hr]
    · rw [if_neg hr, if_neg hr, if_neg hr]
  · rw [if_neg hg] at h
    exact absurd h (by simp [UpdateResult.isOk])

/-- C2: after a successful `setRedirect(X)`, the next successful push's
response carries `redirect = X` and the pending redirect is cleared in the
same step, and a further successful push with no intervening `setRedirect`
carries no redirect (at-most-once delivery). -/
theorem claim_C2 (s : ModuleState) (bodyX bodyA bodyB : JVal) (x : String) (nowA nowB : Int)
    (hset : (handleRedirect (some bodyX) s).1 = RedirectResult.ok x)
    (hA : ((handleUpdate nowA (some bodyA) (handleRedirect (some bodyX) s).2).1).isOk = true)
    (hB : ((handleUpdate nowB (some bodyB)
        (handleUpdate nowA (some bodyA) (handleRedirect (some bodyX) s).2).2).1).isOk = true) :
    ((handleUpdate nowA (some bodyA) (handleRedirect (some bodyX) s).2).1).redirectOf = some x
    ∧ (handleUpdate nowA (some bodyA) (handleRedirect (some bodyX) s).2).2.redirectTimestamp
        = none
    ∧ ((handleUpdate nowB (some bodyB)
        (handleUpdate nowA (some bodyA) (handleRedirect (some bodyX) s).2).2).1).redirectOf
        = none := by
  obtain ⟨hs1, hxne⟩ := handleRedirect_ok bodyX s x hset
  rw [hs1] at hA hB ⊢
  have htr : truthyStr ({ s with redirectTimestamp := some x } : ModuleState).redirectTimestamp
      = true := by
    simp [truthyStr, hxne]
  have eqA := handleUpdate_ok nowA bodyA { s with redirectTimestamp := some x } hA
  rw [eqA] at hB ⊢
  rw [htr] at hB ⊢
  have eqB := handleUpdate_ok nowB bodyB _ hB
  rw [eqB]
  refine ⟨?_, ?_, ?_⟩ <;> simp [UpdateResult.redirectOf, truthyStr]

/-- Witness for C2 at a concrete run. -/
theorem claim_C2_witness :
    ((handleUpdate 1 (some exBodyA)
        (handleRedirect (some exBodyX) initialModuleState).2).1).redirectOf
      = some "2025-11-28T21:00:00.000Z"
    ∧ ((handleUpdate 2 (some exBodyB)
        (handleUpdate 1 (some exBodyA)
          (handleRedirect (some exBodyX) initialModuleState).2).2).1).redirectOf
      = none := by
  have h := claim_C2 initialModuleState exBodyX exBodyA exBodyB
    "2025-11-28T21:00:00.000Z" 1 2 rfl rfl rfl
  exact ⟨h.1, h.2.2⟩

theorem handleUpdate_ok_guard (now : Int) (body : JVal) (s : ModuleState)
    (h : ((handleUpdate now (some body) s).1).isOk = true) :
    truthy (getField body "gmt") = true
    ∧ isValidTimestamp (getField body "gmt") = true := by
  unfold handleUpdate at h
  dsimp only at h
  by_cases hg : (truthy (getField body "gmt") && isValidTimestamp (getField body "gmt")) = true
  · rw [Bool.and_eq_true] at hg; exact hg
  · rw [if_neg hg] at h
    exact absurd h (by simp [UpdateResult.isOk])

theorem truthy_of_getField (v : JVal) (k : String) (h : truthy (getField v k) = true) :
    truthy v = true := by
  cases v <;> simp [getField, truthy] at h ⊢

/-- C3: the Timestamp Validator accepts a value exactly when it is a string
containing both the `T` separator and the `Z` designator that parses as an
absolute instant; the spec's examples behave as stated; and a push is
rejected exactly when the `gmt` field is missing or rejected by the
validator.  (`new Date` parsing is modelled by `jsDateParse`, the ECMA-262
date-time string format.) -/
theorem claim_C3 :
    (∀ v : JVal, isValidTimestamp v = true ↔
      ∃ s, v = JVal.vStr s ∧ (jsDateParse s).isSome = true
        ∧ includesChar s 'T' = true ∧ includesChar s 'Z' = true)
    ∧ isValidTimestamp (JVal.vStr "2025-11-28T21:00:00.000Z") = true
    ∧ isValidTimestamp (JVal.vStr "2025-11-28") = false
    ∧ (jsDateParse "2025-11-28").isSome = true
    ∧ isValidTimestamp (JVal.vStr "not a date") = false
    ∧ isValidTimestamp JVal.vUndefined = false
    ∧ isValidTimestamp JVal.vNull = false
    ∧ (∀ b : Bool, isValidTimestamp (JVal.vBool b) = false)
    ∧ (∀ n : Int, isValidTimestamp (JVal.vNum n) = false)
    ∧ (∀ fs : List (String × JVal), isValidTimestamp (JVal.vObj fs) = false)
    ∧ (∀ (now : Int) (s : ModuleState) (data : JVal),
        (handleUpdate now (some data) s).1 = UpdateResult.invalid ↔
          (getField data "gmt" = JVal.vUndefined
            ∨ isValidTimestamp (getField data "gmt") = false)) := by
  refine ⟨?_, by decide, by decide, by decide, by decide, rfl, rfl,
    fun b => rfl, fun n => rfl, fun fs => rfl, ?_⟩
  · intro v
    constructor
    · exact isValidTimestamp_vStr v
    · rintro ⟨s, rfl, h1, h2, h3⟩
      simp [isValidTimestamp, h1, h2, h3]
  · intro now s data
    unfold handleUpdate
    dsimp only
    by_cases hg : (truthy (getField data "gmt")
        && isValidTimestamp (getField data "gmt")) = true
    · rw [if_pos hg]
      rw [Bool.and_eq_true] at hg
      obtain ⟨hgt, hgv⟩ := hg
      constructor
      · intro hbad
        split at hbad <;> exact absurd hbad (by simp)
      · rintro (hu | hv)
        · rw [hu] at hgt; exact absurd hgt (by simp [truthy])
        · rw [hgv] at hv; exact absurd hv (by simp)
    · rw [if_neg hg]
      constructor
      · intro _
        by_cases hv : isValidTimestamp (getField data "gmt") = true
        · have := isValidTimestamp_truthy _ hv
          rw [Bool.and_eq_true] at hg
          exact absurd ⟨this, hv⟩ hg
        · exact Or.inr (Bool.not_eq_true _ |>.mp hv)
      · intro _; rfl

/-- Counterexample to C4 as stated: a record pushed at clock 0 and read 11
seconds later comes back with no `warning`, because the handler's
`if (lastUpdate)` truthiness guard treats a receipt time of exactly 0 as
absent. -/
theorem claim_C4_counterexample :
    ((handleUpdate 0 (some exBodyA) initialModuleState).1).isOk = true
    ∧ (handlePing 11000 (handleUpdate 0 (some exBodyA) initialModuleState).2).1
      = PingResult.ok exBodyA none :=
  ⟨rfl, rfl⟩

theorem handlePing_of_fields (now : Int) (s : ModuleState) (data : JVal) (lu : Int)
    (h1 : s.timestampData = some data) (h2 : truthy data = true)
    (h3 : s.lastUpdate = some lu) (h4 : lu ≠ 0) :
    (handlePing now s).1
      = PingResult.ok data
          (if 10000 < now - lu
           then some (staleWarning (jsRoundDiv1000 (now - lu))) else none) := by
  unfold handlePing
  rw [h1]
  dsimp only
  rw [if_neg (by simp [h2]), h3]
  dsimp only
  rw [if_neg h4]

/-- C4 amended: for every state in which a record has been pushed at a
nonzero clock value (the handler's truthiness guard skips the staleness
check when the receipt time is exactly 0), `read()` returns a copy of the
latest record, with a warning stating the age in whole seconds exactly when
more than 10 seconds have elapsed — at 11 seconds the warning says 11
seconds, at 9 seconds there is no warning — and `read()` reports no-data on
the never-pushed initial state. -/
theorem claim_C4_amended (s : ModuleState) (body : JVal) (tPush tRead : Int)
    (hnz : tPush ≠ 0)
    (hok : ((handleUpdate tPush (some body) s).1).isOk = true) :
    (handlePing tRead ((handleUpdate tPush (some body) s).2)).1
      = PingResult.ok body
          (if 10000 < tRead - tPush
           then some (staleWarning (jsRoundDiv1000 (tRead - tPush))) else none)
    ∧ (tRead - tPush = 11000 →
        (handlePing tRead ((handleUpdate tPush (some body) s).2)).1
          = PingResult.ok body (some "Data may be stale (11 seconds old)"))
    ∧ (tRead - tPush = 9000 →
        (handlePing tRead ((handleUpdate tPush (some body) s).2)).1
          = PingResult.ok body none)
    ∧ (∀ t : Int, (handlePing t initialModuleState).1 = PingResult.noData) := by
  have hg := handleUpdate_ok_guard tPush body s hok
  have hb : truthy body = true := truthy_of_getField body "gmt" hg.1
  have eqU := handleUpdate_ok tPush body s hok
  have hf1 : (handleUpdate tPush (some body) s).2.timestampData = some body := by
    rw [eqU]
  have hf2 : (handleUpdate tPush (some body) s).2.lastUpdate = some tPush := by
    rw [eqU]
  have hping := handlePing_of_fields tRead ((handleUpdate tPush (some body) s).2)
    body tPush hf1 hb hf2 hnz
  refine ⟨hping, ?_, ?_, fun t => rfl⟩
  · intro h11
    rw [hping, h11]
    rfl
  · intro h9
    rw [hping, h9]
    rfl

/-- Witness for the amended C4 at a concrete run (push at clock 1, reads
11 and 9 seconds later). -/
theorem claim_C4_witness :
    (handlePing 11001 ((handleUpdate 1 (some exBodyA) initialModuleState).2)).1
      = PingResult.ok exBodyA (some "Data may be stale (11 seconds old)")
    ∧ (handlePing 9001 ((handleUpdate 1 (some exBodyA) initialModuleState).2)).1
      = PingResult.ok exBodyA none := by
  have h1 := claim_C4_amended initialModuleState exBodyA 1 11001 (by norm_num) rfl
  have h2 := claim_C4_amended initialModuleState exBodyA 1 9001 (by norm_num) rfl
  exact ⟨h1.2.1 (by norm_num), h2.2.2.1 (by norm_num)⟩

/-- Counterexample to C1 as stated: in forward mode (memory
`lastTargetTime = 0`, target `8`), with candidates at times 7 (before the
target) and 1000010 (at-or-after the target), the resolver selects the
*before*-target candidate `a` — its penalised distance 1000001 beats the
at-or-after distance 1000002 — so an at-or-after candidate is *not* always
preferred over a before-target one. -/
theorem claim_C1_counterexample :
    findMessageByTimestamp [⟨"a", some 7⟩, ⟨"b", some 1000010⟩] (some 0) none 8
      = some ⟨"a", 1000001, false⟩
    ∧ (7 : Int) < 8 ∧ (8 : Int) ≤ 1000010 := by
  refine ⟨by decide, by decide, by decide⟩

/-- C1 amended: in forward mode the distance of a candidate at time `t`
against target `T` is `t - T` when `t ≥ T` and `(T - t) + 1000000` when
`t < T`; every at-or-after candidate at most 1,000,000 ms past the target
is strictly preferred over every before-target candidate (an at-or-after
candidate farther out can lose); and on candidates at times 0, 5, 10 (ids
a, b, c) with memory `{lastTargetTime: 0, lastMatchedId: a}` and new target
8, the resolver selects `c` with distance 2 over `b` with distance
1000003. -/
theorem claim_C1_amended (T t1 t2 : Int) (h1 : t1 < T) (h2 : T ≤ t2) :
    msgDiff true T t1 = (T - t1) + 1000000
    ∧ msgDiff true T t2 = t2 - T
    ∧ (t2 - T ≤ 1000000 → msgDiff true T t2 < msgDiff true T t1)
    ∧ findMessageByTimestamp [⟨"a", some 0⟩, ⟨"b", some 5⟩, ⟨"c", some 10⟩]
        (some 0) (some "a") 8 = some ⟨"c", 2, false⟩
    ∧ msgDiff true 8 5 = 1000003 := by
  have e1 : msgDiff true T t1 = (T - t1) + 1000000 := by
    simp [msgDiff, not_le.mpr h1]
  have e2 : msgDiff true T t2 = t2 - T := by
    simp [msgDiff, h2]
  refine ⟨e1, e2, ?_, by decide, by decide⟩
  intro hle
  rw [e1, e2]
  omega

/-- Witness for the amended C1 at `T = 8`, `t1 = 5`, `t2 = 10`. -/
theorem claim_C1_witness :
    msgDiff true 8 5 = (8 - 5) + 1000000
    ∧ msgDiff true 8 10 = 10 - 8
    ∧ msgDiff true 8 10 < msgDiff true 8 5
    ∧ findMessageByTimestamp [⟨"a", some 0⟩, ⟨"b", some 5⟩, ⟨"c", some 10⟩]
        (some 0) (some "a") 8 = some ⟨"c", 2, false⟩ := by
  have h := claim_C1_amended 8 5 10 (by norm_num) (by norm_num)
  exact ⟨h.1, h.2.1, h.2.2.1 (by norm_num), h.2.2.2.1⟩

/-- C6: on a tick where the fetched `gmt` differs from the last-seen value,
the target-update step records the new target time and held target, resets
`lastScrolledMessageId` exactly when there was no previous target or the
target moved forward by strictly more than 1000 ms, and preserves it on any
backward movement or a forward movement of at most 1 second. -/
theorem claim_C6 (gmt : String) (newTime : Int) (d : DriverState)
    (hchanged : d.lastFetchedTimestamp ≠ some gmt) :
    (updateTargetOnChange gmt newTime d).lastTargetTime = some newTime
    ∧ (updateTargetOnChange gmt newTime d).targetTimestamp = some gmt
    ∧ (updateTargetOnChange gmt newTime d).lastFetchedTimestamp = some gmt
    ∧ (d.lastTargetTime = none →
        (updateTargetOnChange gmt newTime d).lastScrolledMessageId = none)
    ∧ ∀ lt : Int, d.lastTargetTime = some lt →
        ((1000 < newTime - lt →
           (updateTargetOnChange gmt newTime d).lastScrolledMessageId = none)
         ∧ (newTime - lt ≤ 1000 →
             (updateTargetOnChange gmt newTime d).lastScrolledMessageId
               = d.lastScrolledMessageId)) := by
  have hbe : (d.lastFetchedTimestamp == some gmt) = false := by
    simpa using hchanged
  unfold updateTargetOnChange
  rw [hbe]
  refine ⟨rfl, rfl, rfl, ?_, ?_⟩
  · intro hn; simp [hn]
  · intro lt hlt
    constructor
    · intro hfar
      simp [hlt, show lt + 1000 < newTime by omega]
    · intro hnear
      simp [hlt, show ¬ lt + 1000 < newTime by omega]

/-- Witness for C6: a fetch of a new value with a 500 ms forward move
(at most the 1-second hysteresis) keeps the match in progress. -/
theorem claim_C6_witness :
    (updateTargetOnChange "g" 500 ⟨none, none, some "m", some 0⟩).lastTargetTime = some 500
    ∧ (updateTargetOnChange "g" 500 ⟨none, none, some "m", some 0⟩).lastScrolledMessageId
      = some "m" := by
  have h := claim_C6 "g" 500 ⟨none, none, some "m", some 0⟩ (by simp)
  exact ⟨h.1, (h.2.2.2.2 0 rfl).2 (by norm_num)⟩

/-- All branches of `attemptScrollToTarget` leave the held target, the
last-seen fetched value and the last target time untouched. -/
theorem attemptScroll_frame (getTime : String → Int) (messages : Option (List Message))
    (menuOpen : Bool) (d : DriverState) :
    (attemptScrollToTarget getTime messages menuOpen d).1.targetTimestamp
        = d.targetTimestamp
    ∧ (attemptScrollToTarget getTime messages menuOpen d).1.lastFetchedTimestamp
        = d.lastFetchedTimestamp
    ∧ (attemptScrollToTarget getTime messages menuOpen d).1.lastTargetTime
        = d.lastTargetTime := by
  unfold attemptScrollToTarget
  split
  · exact ⟨rfl, rfl, rfl⟩
  · split
    · exact ⟨rfl, rfl, rfl⟩
    · split
      · exact ⟨rfl, rfl, rfl⟩
      · split
        · exact ⟨rfl, rfl, rfl⟩
        · split
          · exact ⟨rfl, rfl, rfl⟩
          · split <;> exact ⟨rfl, rfl, rfl⟩

/-- When a truthy target is held and the menu is closed, the attempt step
always invokes the resolver on the held target. -/
theorem attemptScroll_resolves (getTime : String → Int) (messages : Option (List Message))
    (d : DriverState) (tgt : String)
    (h : d.targetTimestamp = some tgt) (hne : tgt ≠ "") :
    DriverAction.resolve tgt ∈ (attemptScrollToTarget getTime messages false d).2 := by
  unfold attemptScrollToTarget
  rw [h]
  dsimp only
  rw [if_neg (by simpa using hne)]
  rw [if_neg (by simp)]
  split
  · exact List.mem_singleton.mpr rfl
  · split
    · exact List.mem_singleton.mpr rfl
    · split
      · exact List.mem_singleton.mpr rfl
      · exact List.mem_cons_self _ _

/-- Counterexample to C7 as stated: on a tick where the fetch succeeds and
the returned `gmt` equals the last-seen value (`"g"`), the driver still
invokes the resolver and issues a scroll, and `lastScrolledMessageId`
changes — re-resolution is not skipped. -/
theorem claim_C7_counterexample :
    scrollToTimestamp (fun _ => 8) (some [⟨"a", some 10⟩]) false (some "ch") (some "g")
        ⟨some "g", some "g", none, some 0⟩
      = (⟨some "g", some "g", some "a", some 0⟩,
         [DriverAction.resolve "g", DriverAction.scrollTo "a"]) := by
  rfl

/-- C7 amended: on a tick where the fetch succeeds and the returned `gmt`
equals the last-seen value, the driver skips the target update — the held
target, last-seen value and last target time are unchanged and
`lastMatchedId` is not reset by the update step — but it still re-runs
resolution against the held target (and may scroll and update
`lastMatchedId`). -/
theorem claim_C7_amended (getTime : String → Int) (messages : Option (List Message))
    (menuOpen : Bool) (channelId : Option String) (gmt : String) (d : DriverState)
    (hseen : d.lastFetchedTimestamp = some gmt) :
    (scrollToTimestamp getTime messages menuOpen channelId (some gmt) d).1.targetTimestamp
        = d.targetTimestamp
    ∧ (scrollToTimestamp getTime messages menuOpen channelId
        (some gmt) d).1.lastFetchedTimestamp = d.lastFetchedTimestamp
    ∧ (scrollToTimestamp getTime messages menuOpen channelId
        (some gmt) d).1.lastTargetTime = d.lastTargetTime
    ∧ (truthyStr channelId = true → menuOpen = false → gmt ≠ "" →
        d.targetTimestamp = some gmt →
        DriverAction.resolve gmt
          ∈ (scrollToTimestamp getTime messages menuOpen channelId (some gmt) d).2) := by
  have hd1 : updateTargetOnChange gmt (getTime gmt) d = d := by
    unfold updateTargetOnChange
    rw [if_pos (by simp [hseen])]
  unfold scrollToTimestamp
  by_cases hch : truthyStr channelId = false
  · rw [if_pos hch]
    exact ⟨rfl, rfl, rfl, fun hc => absurd hch (by simp [hc])⟩
  · rw [if_neg hch]
    dsimp only
    by_cases hg : gmt = ""
    · rw [if_pos (by simpa using hg)]
      split
      · exact ⟨(attemptScroll_frame _ _ _ _).1, (attemptScroll_frame _ _ _ _).2.1,
          (attemptScroll_frame _ _ _ _).2.2, fun _ _ hne _ => absurd hg hne⟩
      · exact ⟨rfl, rfl, rfl, fun _ _ hne _ => absurd hg hne⟩
    · rw [if_neg (by simpa using hg)]
      rw [hd1]
      split
      · refine ⟨(attemptScroll_frame _ _ _ _).1, (attemptScroll_frame _ _ _ _).2.1,
          (attemptScroll_frame _ _ _ _).2.2, ?_⟩
        intro _ hmenu _ htgt
        subst hmenu
        exact attemptScroll_resolves getTime messages d gmt htgt hg
      · rename_i htf
        refine ⟨rfl, rfl, rfl, ?_⟩
        intro _ _ _ htgt
        exact absurd (by simp [truthyStr, htgt, hg]) htf

/-- Witness for the amended C7 at a concrete unchanged-gmt tick. -/
theorem claim_C7_witness :
    (scrollToTimestamp (fun _ => 8) (some [⟨"a", some 10⟩]) false (some "ch") (some "g")
        ⟨some "g", some "g", none, some 0⟩).1.lastTargetTime = some 0
    ∧ DriverAction.resolve "g"
        ∈ (scrollToTimestamp (fun _ => 8) (some [⟨"a", some 10⟩]) false (some "ch")
            (some "g") ⟨some "g", some "g", none, some 0⟩).2 := by
  have h := claim_C7_amended (fun _ => 8) (some [⟨"a", some 10⟩]) false (some "ch") "g"
    ⟨some "g", some "g", none, some 0⟩ rfl
  exact ⟨h.2.2.1, h.2.2.2 rfl rfl (by decide) rfl⟩

theorem reduceClosest_mem (l : List DiffEntry) :
    ∀ acc : DiffEntry, reduceClosest acc l = acc ∨ reduceClosest acc l ∈ l := by
  induction l with
  | nil => intro acc; exact Or.inl rfl
  | cons e es ih =>
    intro acc
    unfold reduceClosest
    rcases ih (if e.diff < acc.diff then e else acc) with h | h
    · rw [h]
      by_cases hc : e.diff < acc.diff
      · rw [if_pos hc]; exact Or.inr (List.mem_cons_self e es)
      · rw [if_neg hc]; exact Or.inl rfl
    · exact Or.inr (List.mem_cons_of_mem e h)

theorem reduceClosest_min (l : List DiffEntry) :
    ∀ acc d : DiffEntry, d ∈ acc :: l → (reduceClosest acc l).diff ≤ d.diff := by
  induction l with
  | nil =>
    intro acc d hd
    rcases List.mem_cons.mp hd with rfl | h
    · exact le_refl _
    · exact absurd h (List.not_mem_nil d)
  | cons e es ih =>
    intro acc d hd
    unfold reduceClosest
    have hacc : (if e.diff < acc.diff then e else acc).diff ≤ acc.diff
        ∧ (if e.diff < acc.diff then e else acc).diff ≤ e.diff := by
      by_cases hc : e.diff < acc.diff
      · rw [if_pos hc]; exact ⟨le_of_lt hc, le_refl _⟩
      · rw [if_neg hc]; exact ⟨le_refl _, le_of_not_lt hc⟩
    rcases List.mem_cons.mp hd with rfl | hd'
    · exact le_trans (ih _ _ (List.mem_cons_self _ _)) hacc.1
    · rcases List.mem_cons.mp hd' with rfl | hd''
      · exact le_trans (ih _ _ (List.mem_cons_self _ _)) hacc.2
      · exact ih _ d (List.mem_cons_of_mem _ hd'')

theorem reduceClosest_eq_acc (l : List DiffEntry) (acc : DiffEntry)
    (h : ∀ d ∈ l, acc.diff ≤ d.diff) : reduceClosest acc l = acc := by
  induction l with
  | nil => rfl
  | cons e es ih =>
    unfold reduceClosest
    rw [if_neg (not_lt.mpr (h e (List.mem_cons_self e es)))]
    exact ih (fun d hd => h d (List.mem_cons_of_mem e hd))

theorem collectDiffs_mem (fwd : Bool) (T : Int) (s : Nat) (arr : List Message) :
    ∀ (i : Nat) (d : DiffEntry),
      d ∈ collectDiffs fwd T s i arr ↔
        ∃ m t, s ≤ d.index ∧ i ≤ d.index ∧ arr.get? (d.index - i) = some m
          ∧ m.timestamp = some t ∧ d.id = m.id ∧ d.diff = msgDiff fwd T t := by
  induction arr with
  | nil =>
    intro i d
    simp [collectDiffs]
  | cons m rest ih =>
    intro i d
    constructor
    · intro hd
      unfold collectDiffs at hd
      dsimp only at hd
      by_cases hi : i < s
      · rw [if_pos hi] at hd
        obtain ⟨m', t', hs, hi', hget, hts', hid, hdiff⟩ := (ih (i + 1) d).mp hd
        refine ⟨m', t', hs, by omega, ?_, hts', hid, hdiff⟩
        have hix : d.index - i = (d.index - (i + 1)) + 1 := by omega
        rw [hix, List.get?_cons_succ]
        exact hget
      · rw [if_neg hi] at hd
        cases hts : m.timestamp with
        | none =>
          rw [hts] at hd
          obtain ⟨m', t', hs, hi', hget, hts', hid, hdiff⟩ := (ih (i + 1) d).mp hd
          refine ⟨m', t', hs, by omega, ?_, hts', hid, hdiff⟩
          have hix : d.index - i = (d.index - (i + 1)) + 1 := by omega
          rw [hix, List.get?_cons_succ]
          exact hget
        | some t =>
          rw [hts] at hd
          rcases List.mem_cons.mp hd with rfl | hd'
          · exact ⟨m, t, by simp; omega, by simp, by simp, hts, rfl, rfl⟩
          · obtain ⟨m', t', hs, hi', hget, hts', hid, hdiff⟩ := (ih (i + 1) d).mp hd'
            refine ⟨m', t', hs, by omega, ?_, hts', hid, hdiff⟩
            have hix : d.index - i = (d.index - (i + 1)) + 1 := by omega
            rw [hix, List.get?_cons_succ]
            exact hget
    · rintro ⟨m', t', hs, hi', hget, hts', hid, hdiff⟩
      unfold collectDiffs
      dsimp only
      by_cases hie : d.index = i
      · rw [hie, Nat.sub_self, List.get?_cons_zero] at hget
        injection hget with hget
        subst hget
        have hi : ¬ i < s := by omega
        rw [if_neg hi, hts']
        have hdeq : d = ⟨m.id, msgDiff fwd T t', i⟩ := by
          cases d
          simp_all
        rw [hdeq]
        exact List.mem_cons_self _ _
      · have hgt : i < d.index := by omega
        have hix : d.index - i = (d.index - (i + 1)) + 1 := by omega
        rw [hix, List.get?_cons_succ] at hget
        have hdtail : d ∈ collectDiffs fwd T s (i + 1) rest :=
          (ih (i + 1) d).mpr ⟨m', t', hs, by omega, hget, hts', hid, hdiff⟩
        by_cases hi : i < s
        · rw [if_pos hi]; exact hdtail
        · rw [if_neg hi]
          cases hts : m.timestamp with
          | none => exact hdtail
          | some t => exact List.mem_cons_of_mem _ hdtail

theorem collectDiffs_thresh (fwd : Bool) (T : Int) (arr : List Message) :
    ∀ i s1 s2 : Nat, s1 ≤ i → s2 ≤ i →
      collectDiffs fwd T s1 i arr = collectDiffs fwd T s2 i arr := by
  induction arr with
  | nil => intro i s1 s2 _ _; rfl
  | cons m rest ih =>
    intro i s1 s2 h1 h2
    unfold collectDiffs
    dsimp only
    rw [if_neg (by omega), if_neg (by omega)]
    rw [ih (i + 1) s1 s2 (by omega) (by omega)]

theorem collectDiffs_head (fwd : Bool) (T : Int) (arr : List Message) :
    ∀ (i j : Nat) (m : Message) (t : Int),
      i ≤ j → arr.get? (j - i) = some m → m.timestamp = some t →
      collectDiffs fwd T j i arr
        = ⟨m.id, msgDiff fwd T t, j⟩ :: collectDiffs fwd T (j + 1) i arr := by
  induction arr with
  | nil => intro i j m t _ hget _; simp at hget
  | cons x rest ih =>
    intro i j m t hij hget hts
    by_cases hij' : i = j
    · subst hij'
      rw [Nat.sub_self, List.get?_cons_zero] at hget
      injection hget with hget
      subst hget
      unfold collectDiffs
      dsimp only
      rw [if_neg (by omega), if_pos (by omega), hts]
      dsimp only
      congr 1
      exact collectDiffs_thresh fwd T rest (i + 1) i (i + 1) (by omega) (by omega)
    · have hlt : i < j := by omega
      have hix : j - i = (j - (i + 1)) + 1 := by omega
      rw [hix, List.get?_cons_succ] at hget
      unfold collectDiffs
      dsimp only
      rw [if_pos hlt, if_pos (by omega)]
      exact ih (i + 1) j m t (by omega) hget hts

theorem findIndexFrom_of_nodup (arr : List Message) :
    ∀ (k i : Nat) (mt : Message),
      (arr.map Message.id).Nodup → arr.get? k = some mt →
      findIndexFrom mt.id i arr = some (i + k) := by
  induction arr with
  | nil => intro k i mt _ hget; simp at hget
  | cons x rest ih =>
    intro k i mt hnd hget
    rw [List.map_cons, List.nodup_cons] at hnd
    cases k with
    | zero =>
      rw [List.get?_cons_zero] at hget
      injection hget with hget
      subst hget
      unfold findIndexFrom
      rw [if_pos (by simp)]
      simp
    | succ k' =>
      rw [List.get?_cons_succ] at hget
      have hmem : mt.id ∈ rest.map Message.id :=
        List.mem_map_of_mem Message.id (List.get?_mem hget)
      have hne : ¬ (x.id == mt.id) = true := by
        simp only [beq_iff_eq]
        intro hc
        exact hnd.1 (hc ▸ hmem)
      unfold findIndexFrom
      rw [if_neg hne, ih k' (i + 1) mt hnd.2 hget]
      congr 1
      omega

theorem findIndexFrom_nodup (arr : List Message) (k : Nat) (mt : Message)
    (hnd : (arr.map Message.id).Nodup) (hget : arr.get? k = some mt) :
    findIndexFrom mt.id 0 arr = some k := by
  have h := findIndexFrom_of_nodup arr k 0 mt hnd hget
  simpa using h

theorem findMessage_selected (arr : List Message) (lt : Option Int)
    (lsid : Option String) (T : Int) :
    findMessageByTimestamp arr lt lsid T
      = (selectedEntry arr lt lsid T).map
          (fun c => ⟨c.id, c.diff,
            (lsid == some c.id) && isClosestCheck arr (forwardMode lt T) T c⟩) := by
  unfold findMessageByTimestamp selectedEntry
  dsimp only
  cases h : collectDiffs (forwardMode lt T) T (startIndexOf arr lt lsid T) 0 arr with
  | nil => rfl
  | cons e es => rfl

/-- C5: the result's `isClosest` flag is true only when both the selected
id equals the remembered `lastScrolledMessageId` and the local-minimum
neighbour check passed; and re-running the resolver with the same target
and the memory recording the first call's selection returns the same
selection with `isClosest = true` whenever that selection passed the
local-minimum check (idempotent re-selection).  Hypotheses: candidate ids
are unique and nonempty, per the data model (ids are opaque, unique,
stable Discord snowflakes). -/
theorem claim_C5 (arr : List Message) (lt : Option Int) (lsid : Option String) (T : Int)
    (res1 : MatchResult)
    (hnodup : (arr.map Message.id).Nodup)
    (hne : ¬ "" ∈ arr.map Message.id)
    (h1 : findMessageByTimestamp arr lt lsid T = some res1) :
    (res1.isClosest = true →
      (lsid == some res1.id) = true
      ∧ ∃ c, selectedEntry arr lt lsid T = some c
          ∧ isClosestCheck arr (forwardMode lt T) T c = true)
    ∧ (∀ c, selectedEntry arr lt lsid T = some c →
        isClosestCheck arr (forwardMode lt T) T c = true →
        findMessageByTimestamp arr lt (some res1.id) T
          = some ⟨res1.id, res1.diff, true⟩) := by
  rw [findMessage_selected] at h1
  cases hsel : selectedEntry arr lt lsid T with
  | none => rw [hsel] at h1; exact absurd h1 (by simp)
  | some c0 =>
    rw [hsel, Option.map_some'] at h1
    injection h1 with h1
    subst h1
    obtain ⟨e, es, hL, hred⟩ :
        ∃ e es,
          collectDiffs (forwardMode lt T) T (startIndexOf arr lt lsid T) 0 arr = e :: es
          ∧ reduceClosest e es = c0 := by
      unfold selectedEntry at hsel
      cases hLL : collectDiffs (forwardMode lt T) T (startIndexOf arr lt lsid T) 0 arr with
      | nil => rw [hLL] at hsel; exact absurd hsel (by simp)
      | cons e es =>
        rw [hLL] at hsel
        dsimp only at hsel
        injection hsel with hsel
        exact ⟨e, es, rfl, hsel⟩
    have hc0mem : c0 ∈ e :: es := by
      rcases reduceClosest_mem es e with h | h
      · rw [hred] at h; rw [h]; exact List.mem_cons_self _ _
      · rw [hred] at h; exact List.mem_cons_of_mem _ h
    have hmin : ∀ d ∈ e :: es, c0.diff ≤ d.diff := fun d hd =>
      hred ▸ reduceClosest_min es e d hd
    obtain ⟨m0, t0, hs1le, -, hget0, hts0, hid0, hdiff0⟩ :=
      (collectDiffs_mem (forwardMode lt T) T (startIndexOf arr lt lsid T) arr 0 c0).mp
        (hL ▸ hc0mem)
    rw [Nat.sub_zero] at hget0
    have hidne : c0.id ≠ "" := by
      rw [hid0]
      intro hc
      exact hne (hc ▸ List.mem_map_of_mem Message.id (List.get?_mem hget0))
    constructor
    · intro hcl
      dsimp only at hcl
      rw [Bool.and_eq_true] at hcl
      exact ⟨hcl.1, c0, rfl, hcl.2⟩
    · intro c hc hchk
      injection hc with hc
      subst hc
      dsimp only
      rw [findMessage_selected]
      have hsel2 : selectedEntry arr lt (some c0.id) T = some c0 := by
        by_cases hfwd : forwardMode lt T = true
        · -- forward mode: the second scan starts exactly at the selected index
          have htr2 : truthyStr (some c0.id) = true := by simp [truthyStr, hidne]
          have hfind : findIndexFrom c0.id 0 arr = some c0.index := by
            rw [hid0]; exact findIndexFrom_nodup arr c0.index m0 hnodup hget0
          have hstart2 : startIndexOf arr lt (some c0.id) T = c0.index := by
            unfold startIndexOf
            rw [hfwd, htr2]
            simp [hfind]
          have hL2 : collectDiffs (forwardMode lt T) T c0.index 0 arr
              = c0 :: collectDiffs (forwardMode lt T) T (c0.index + 1) 0 arr := by
            have hh := collectDiffs_head (forwardMode lt T) T arr 0 c0.index m0 t0
              (by omega) (by simpa using hget0) hts0
            rw [hh]
            congr 1
            rw [← hid0, ← hdiff0]
          have htail : ∀ d ∈ collectDiffs (forwardMode lt T) T (c0.index + 1) 0 arr,
              c0.diff ≤ d.diff := by
            intro d hd
            obtain ⟨m', t', hs', hi', hget', hts', hid', hdiff'⟩ :=
              (collectDiffs_mem (forwardMode lt T) T (c0.index + 1) arr 0 d).mp hd
            have hdinL1 : d ∈ e :: es := by
              rw [← hL]
              exact (collectDiffs_mem (forwardMode lt T) T
                  (startIndexOf arr lt lsid T) arr 0 d).mpr
                ⟨m', t', by omega, by omega, hget', hts', hid', hdiff'⟩
            exact hmin d hdinL1
          unfold selectedEntry
          rw [hstart2, hL2]
          dsimp only
          rw [reduceClosest_eq_acc _ c0 htail]
        · -- absolute mode: both scans cover the whole array
          have hfwd' : forwardMode lt T = false := by
            cases hf : forwardMode lt T
            · rfl
            · exact absurd hf hfwd
          have hstart0 : ∀ l : Option String, startIndexOf arr lt l T = 0 := by
            intro l; unfold startIndexOf; rw [hfwd']; simp
          rw [hstart0 lsid] at hL
          unfold selectedEntry
          rw [hstart0 (some c0.id), hL]
          dsimp only
          rw [hred]
      rw [hsel2, Option.map_some']
      have hbeq : (some c0.id == some c0.id) = true := by simp
      rw [hbeq, Bool.true_and, hchk]

/-- Witness for C5: candidates at times 0 and 5, memory
`{lastTargetTime: 0}`, target 3 — the first call selects `b`; with the
memory recording `b`, the second call reports `isClosest = true`. -/
theorem claim_C5_witness :
    findMessageByTimestamp [⟨"a", some 0⟩, ⟨"b", some 5⟩] (some 0) (some "b") 3
      = some ⟨"b", 2, true⟩ := by
  have h := claim_C5 [⟨"a", some 0⟩, ⟨"b", some 5⟩] (some 0) none 3 ⟨"b", 2, false⟩
    (by decide) (by decide) (by decide)
  exact h.2 ⟨"b", 2, 1⟩ (by decide) (by decide)

end YTSync
